import Mathlib

/-!
# Realm client-registration policies: config coercion, lookup and import

A shallow embedding of the Keycloak Terraform provider's realm
client-registration-policy resource:

* `keycloak/realm_client_registration_policy.go`
* `provider/resource_keycloak_realm_client_registration_policy.go`
* `provider/data_source_keycloak_realm_client_registration_policy.go`

Go strings are embedded as Lean `String`s (sequences of Unicode code points), Go
slices as `List`s, and Go maps as association lists with pairwise distinct keys
(`AList`).  A `for k, v := range m` loop is a left fold over the entries of the
map; since the theorems quantify over every association list, they cover every
iteration order the Go runtime may pick.
-/

namespace Keycloak

/-! ## The Go `strings` functions used by the source -/

/-- Go `unicode.IsSpace`: the Unicode White_Space code points. -/
def isSpace (c : Char) : Bool :=
  let n := c.toNat
  (0x09 ≤ n && n ≤ 0x0D) || n == 0x20 || n == 0x85 || n == 0xA0 || n == 0x1680 ||
    (0x2000 ≤ n && n ≤ 0x200A) || n == 0x2028 || n == 0x2029 || n == 0x202F ||
    n == 0x205F || n == 0x3000

/-- Occurrence test behind `strings.Contains`: `sub` occurs somewhere in the text. -/
def containsChars (sub : List Char) : List Char → Bool
  | [] => sub.isPrefixOf []
  | c :: cs => sub.isPrefixOf (c :: cs) || containsChars sub cs

/-- Go `strings.Contains(s, substr)`. -/
def Contains (s substr : String) : Bool :=
  containsChars substr.data s.data

/-- Puts one character in front of the first piece of a split. -/
def consHead (c : Char) : List (List Char) → List (List Char)
  | [] => [[c]]
  | p :: ps => (c :: p) :: ps

/-- Splitting around every non-overlapping occurrence of a non-empty separator,
scanning from the left; `skip` counts the characters of an already matched
separator that are still to be passed over. -/
def splitChars (sep : List Char) : Nat → List Char → List (List Char)
  | _, [] => [[]]
  | skip + 1, _ :: cs => splitChars sep skip cs
  | 0, c :: cs =>
    if sep.isPrefixOf (c :: cs) then [] :: splitChars sep (sep.length - 1) cs
    else consHead c (splitChars sep 0 cs)

/-- Go `strings.Split(s, sep)`: all substrings of `s` separated by `sep`; with an
empty separator the string is split after each character. -/
def Split (s sep : String) : List String :=
  if sep.data = [] then s.data.map (fun c => String.mk [c])
  else (splitChars sep.data 0 s.data).map String.mk

/-- Go `strings.Join(elems, sep)`. -/
def Join : List String → String → String
  | [], _ => ""
  | [a], _ => a
  | a :: b :: rest, sep => a ++ sep ++ Join (b :: rest) sep

/-- Go `strings.TrimSpace(s)`: `s` without leading and trailing white space. -/
def TrimSpace (s : String) : String :=
  String.mk ((s.data.dropWhile isSpace).reverse.dropWhile isSpace).reverse

/-- The string starts with a white-space character. -/
def hasLeadingSpace (s : String) : Bool :=
  match s.data.head? with
  | some c => isSpace c
  | none => false

/-- The string ends with a white-space character. -/
def hasTrailingSpace (s : String) : Bool :=
  match s.data.getLast? with
  | some c => isSpace c
  | none => false

/-! ## Maps -/

/-- A Go `map[string]V`. -/
abbrev GoMap (V : Type) := AList (fun _ : String => V)

/-! ## `keycloak/realm_client_registration_policy.go` -/

/-- The Go struct `RealmClientRegistrationPolicy`. -/
structure RealmClientRegistrationPolicy where
  Id : String
  Name : String
  RealmId : String
  ProviderId : String
  SubType : String
  Config : GoMap (List String)

/-- Modelled from the spec: the struct `component` is declared in a file of the
package that is not part of the sources at hand; the spec's data model gives its
fields as id, name, parent id, provider id, provider-type tag, sub-type and a
config of the same shape as the policy's. -/
structure component where
  Id : String
  Name : String
  ParentId : String
  ProviderId : String
  ProviderType : String
  SubType : String
  Config : GoMap (List String)

/-- Body of the loop of `convertConfigMapToArrayFormat`. -/
def convertConfigMapToArrayFormatStep (result : GoMap (List String))
    (e : Sigma (fun _ : String => String)) : GoMap (List String) :=
  if e.1 = "trusted-hosts" ∧ Contains e.2 "," = true then
    result.insert e.1 (Split e.2 ",")
  else
    result.insert e.1 [e.2]

/-- The helper `convertConfigMapToArrayFormat`. -/
def convertConfigMapToArrayFormat (config : GoMap String) : GoMap (List String) :=
  config.entries.foldl convertConfigMapToArrayFormatStep ∅

/-- Body of the loop of `convertConfigArrayToMapFormat`. -/
def convertConfigArrayToMapFormatStep (result : GoMap String)
    (e : Sigma (fun _ : String => List String)) : GoMap String :=
  if h : e.2.length > 0 then
    if e.1 = "trusted-hosts" ∧ e.2.length > 1 then
      result.insert e.1 (Join e.2 ",")
    else
      result.insert e.1 (e.2.get ⟨0, h⟩)
  else
    result

/-- The helper `convertConfigArrayToMapFormat`. -/
def convertConfigArrayToMapFormat (config : GoMap (List String)) : GoMap String :=
  config.entries.foldl convertConfigArrayToMapFormatStep ∅

/-- The function `convertFromRealmClientRegistrationPolicyToComponent`. -/
def convertFromRealmClientRegistrationPolicyToComponent (policy : RealmClientRegistrationPolicy) :
    component :=
  { Id := policy.Id
    Name := policy.Name
    ParentId := policy.RealmId
    ProviderId := policy.ProviderId
    ProviderType := "org.keycloak.services.clientregistration.policy.ClientRegistrationPolicy"
    SubType := policy.SubType
    Config := policy.Config }

/-- The function `convertFromComponentToRealmClientRegistrationPolicy`. -/
def convertFromComponentToRealmClientRegistrationPolicy (c : component) (realmId : String) :
    RealmClientRegistrationPolicy :=
  { Id := c.Id
    Name := c.Name
    RealmId := realmId
    ProviderId := c.ProviderId
    SubType := c.SubType
    Config := c.Config }

/-- Modelled from the spec: the helper `getIdFromLocationHeader` is defined in a
file of the package that is not part of the sources at hand; the spec describes it
as extracting the trailing path segment (the new identity) from the location
indicator of a response, that is the text after the last `/`. -/
def getIdFromLocationHeader (location : String) : String :=
  match (Split location "/").getLast? with
  | some id => id
  | none => ""

/-- The method `NewRealmClientRegistrationPolicy`: the returned error, if any, and
the policy behind the pointer after the call; `post` is the transport call
`keycloakClient.post`, a function from the request path and the body to either an
error or the location of the created component. -/
def NewRealmClientRegistrationPolicy (post : String → component → Except String String)
    (policy : RealmClientRegistrationPolicy) : Option String × RealmClientRegistrationPolicy :=
  match post ("/realms/" ++ policy.RealmId ++ "/components")
    (convertFromRealmClientRegistrationPolicyToComponent policy) with
  | .error err => (some err, policy)
  | .ok location => (none, { policy with Id := getIdFromLocationHeader location })

/-- The method `GetRealmClientRegistrationPolicy`; `get` is the transport call
`keycloakClient.get` decoding one component, a function from the request path to
either an error or the component. -/
def GetRealmClientRegistrationPolicy (get : String → Except String component)
    (realmId id : String) : Except String RealmClientRegistrationPolicy :=
  match get ("/realms/" ++ realmId ++ "/components/" ++ id) with
  | .error err => .error err
  | .ok c =>
    if c.ProviderType ≠
        "org.keycloak.services.clientregistration.policy.ClientRegistrationPolicy" then
      .error ("component with id " ++ id ++ " is not a client registration policy")
    else
      .ok (convertFromComponentToRealmClientRegistrationPolicy c realmId)

/-- The method `GetRealmClientRegistrationPolicies`; `get` is the transport call
`keycloakClient.get` decoding a list of components, a function from the request
path and the query parameters to either an error or the list. -/
def GetRealmClientRegistrationPolicies
    (get : String → GoMap String → Except String (List component)) (realmId : String) :
    Except String (List RealmClientRegistrationPolicy) :=
  match get ("/realms/" ++ realmId ++ "/components")
    (AList.singleton "type"
      "org.keycloak.services.clientregistration.policy.ClientRegistrationPolicy") with
  | .error err => .error err
  | .ok components =>
    .ok (components.foldl
      (fun policies c => policies ++ [convertFromComponentToRealmClientRegistrationPolicy c realmId])
      [])

/-! ## `provider/resource_keycloak_realm_client_registration_policy.go` -/

/-- The part of `schema.ResourceData` the resource and the data source use: the
resource id and the schema fields. -/
structure ResourceData where
  id : String
  realm_id : String
  name : String
  provider_id : String
  sub_type : String
  config : GoMap String

/-- Body of the config loop of `getRealmClientRegistrationPolicyFromData`. -/
def getRealmClientRegistrationPolicyFromDataStep (config : GoMap (List String))
    (e : Sigma (fun _ : String => String)) : GoMap (List String) :=
  if e.1 = "trusted-hosts" ∧ Contains e.2 "," = true then
    config.insert e.1 ((Split e.2 ",").map TrimSpace)
  else
    config.insert e.1 [e.2]

/-- The config conversion of `getRealmClientRegistrationPolicyFromData`;
`data.GetOk("config")` reports `ok` exactly when the map is not empty. -/
def getRealmClientRegistrationPolicyFromDataConfig (configMap : GoMap String) :
    GoMap (List String) :=
  if configMap.entries ≠ [] then
    configMap.entries.foldl getRealmClientRegistrationPolicyFromDataStep ∅
  else
    ∅

/-- The function `getRealmClientRegistrationPolicyFromData`. -/
def getRealmClientRegistrationPolicyFromData (data : ResourceData) :
    RealmClientRegistrationPolicy :=
  { Id := data.id
    Name := data.name
    RealmId := data.realm_id
    ProviderId := data.provider_id
    SubType := data.sub_type
    Config := getRealmClientRegistrationPolicyFromDataConfig data.config }

/-- Body of the config loop of `setRealmClientRegistrationPolicyData`. -/
def setRealmClientRegistrationPolicyDataStep (configMap : GoMap String)
    (e : Sigma (fun _ : String => List String)) : GoMap String :=
  if h : e.2.length > 0 then
    if e.1 = "trusted-hosts" ∧ e.2.length > 1 then
      configMap.insert e.1 (Join e.2 ",")
    else
      configMap.insert e.1 (e.2.get ⟨0, h⟩)
  else
    configMap

/-- The config conversion of `setRealmClientRegistrationPolicyData`. -/
def setRealmClientRegistrationPolicyDataConfig (config : GoMap (List String)) : GoMap String :=
  config.entries.foldl setRealmClientRegistrationPolicyDataStep ∅

/-- The function `setRealmClientRegistrationPolicyData`: the resource data after
the call.  Every `data.Set` writes a schema field with a value of the field's
type, so none of the error returns is taken. -/
def setRealmClientRegistrationPolicyData (_data : ResourceData)
    (policy : RealmClientRegistrationPolicy) : ResourceData :=
  { id := policy.Id
    realm_id := policy.RealmId
    name := policy.Name
    provider_id := policy.ProviderId
    sub_type := policy.SubType
    config := setRealmClientRegistrationPolicyDataConfig policy.Config }

/-- The function `resourceKeycloakRealmClientRegistrationPolicyImport`. -/
def resourceKeycloakRealmClientRegistrationPolicyImport (d : ResourceData) :
    Except String (List ResourceData) :=
  let parts := Split d.id "/"
  if h : parts.length ≠ 2 then
    .error "Invalid import. Supported import formats: \x7b\x7brealmId\x7d\x7d/\x7b\x7bpolicyId\x7d\x7d"
  else
    .ok [{ d with
      realm_id := parts.get ⟨0, by omega⟩
      id := parts.get ⟨1, by omega⟩ }]

/-- The import identifier built by the acceptance test's
`getRealmClientRegistrationPolicyImportId`. -/
def getRealmClientRegistrationPolicyImportId (realmId id : String) : String :=
  realmId ++ "/" ++ id

/-! ## `provider/data_source_keycloak_realm_client_registration_policy.go` -/

/-- Body of the filter loop of the data source read. -/
def matchingPoliciesStep (name providerId subType : String)
    (matchingPolicies : List RealmClientRegistrationPolicy)
    (policy : RealmClientRegistrationPolicy) : List RealmClientRegistrationPolicy :=
  if policy.Name ≠ name then matchingPolicies
  else if providerId ≠ "" ∧ policy.ProviderId ≠ providerId then matchingPolicies
  else if subType ≠ "" ∧ policy.SubType ≠ subType then matchingPolicies
  else matchingPolicies ++ [policy]

/-- The filter loop of the data source read. -/
def matchingPolicies (policies : List RealmClientRegistrationPolicy)
    (name providerId subType : String) : List RealmClientRegistrationPolicy :=
  policies.foldl (matchingPoliciesStep name providerId subType) []

/-- The loop building the entries of the multiple-match error. -/
def matchIds (matching : List RealmClientRegistrationPolicy) : List String :=
  matching.foldl
    (fun ids p =>
      ids ++ [p.Id ++ " (providerId=" ++ p.ProviderId ++ ", subType=" ++ p.SubType ++ ")"])
    []

/-- Body of the config loop of the data source read. -/
def dataSourceConfigStep (configMap : GoMap String)
    (e : Sigma (fun _ : String => List String)) : GoMap String :=
  if h : e.2.length > 0 then
    if e.1 = "trusted-hosts" ∧ e.2.length > 1 then
      configMap.insert e.1 (Join e.2 ",")
    else
      configMap.insert e.1 (e.2.get ⟨0, h⟩)
  else
    configMap

/-- The config conversion of the data source read. -/
def dataSourceConfig (config : GoMap (List String)) : GoMap String :=
  config.entries.foldl dataSourceConfigStep ∅

/-- The function `dataSourceKeycloakRealmClientRegistrationPolicyRead`: either the
error diagnostic or the data after the read; `get` is the transport call behind
`GetRealmClientRegistrationPolicies`. -/
def dataSourceKeycloakRealmClientRegistrationPolicyRead
    (get : String → GoMap String → Except String (List component)) (data : ResourceData) :
    Except String ResourceData :=
  let realmId := data.realm_id
  let name := data.name
  let providerId := data.provider_id
  let subType := data.sub_type
  match GetRealmClientRegistrationPolicies get realmId with
  | .error err => .error err
  | .ok policies =>
    let matching := matchingPolicies policies name providerId subType
    if h0 : matching.length = 0 then
      .error ("no client registration policy found with name \x27" ++ name ++
        "\x27 in realm \x27" ++ realmId ++ "\x27")
    else if matching.length > 1 then
      .error ("multiple client registration policies found with name \x27" ++ name ++
        "\x27: " ++ Join (matchIds matching) ", " ++
        ". Use provider_id and/or sub_type to filter.")
    else
      let policy := matching.get ⟨0, by omega⟩
      .ok { data with
        id := policy.Id
        provider_id := policy.ProviderId
        sub_type := policy.SubType
        config := dataSourceConfig policy.Config }

/-! ## Vocabulary of the statements and concrete inputs -/

/-- Writes `k ↦ w` when a value is produced and leaves the map alone otherwise. -/
def putOpt {B : Type} (acc : GoMap B) (k : String) : Option B → GoMap B
  | some w => acc.insert k w
  | none => acc

/-- Value the resource layer's expand loop stores under `k` for the single value `v`. -/
def expandValue (k v : String) : List String :=
  if k = "trusted-hosts" ∧ Contains v "," = true then (Split v ",").map TrimSpace else [v]

/-- Value the helper `convertConfigMapToArrayFormat` stores under `k` for `v`. -/
def helperExpandValue (k v : String) : List String :=
  if k = "trusted-hosts" ∧ Contains v "," = true then Split v "," else [v]

/-- Value a collapse loop stores under `k` for the sequence `vs`, if any. -/
def collapseValue (k : String) (vs : List String) : Option String :=
  match vs with
  | [] => none
  | v0 :: rest =>
    if k = "trusted-hosts" ∧ (v0 :: rest).length > 1 then some (Join (v0 :: rest) ",")
    else some v0

/-- The lookup criterion in words: the name is equal, and so are the provider id
and the sub-type when the respective filter is provided (not the empty string). -/
def matchesFilters (name providerId subType : String)
    (p : RealmClientRegistrationPolicy) : Bool :=
  decide (p.Name = name) && (decide (providerId = "") || decide (p.ProviderId = providerId)) &&
    (decide (subType = "") || decide (p.SubType = subType))

/-- One entry of the multiple-match error: `<Id> (providerId=<ProviderId>, subType=<SubType>)`. -/
def matchEntry (p : RealmClientRegistrationPolicy) : String :=
  p.Id ++ " (providerId=" ++ p.ProviderId ++ ", subType=" ++ p.SubType ++ ")"

/-- A resource data with every field blank. -/
def emptyData : ResourceData := ⟨"", "", "", "", "", ∅⟩

/-- A policy with every field blank. -/
def emptyPolicy : RealmClientRegistrationPolicy := ⟨"", "", "", "", "", ∅⟩

/-- The config of the first step of the trusted-hosts acceptance test. -/
def testConfigSingle : GoMap String :=
  ((AList.singleton "trusted-hosts" "claude.ai").insert
    "host-sending-registration-request-must-match" "true").insert "client-uris-must-match" "true"

/-- A sequence-form config with an empty sequence. -/
def configEmptySeq : GoMap (List String) := AList.singleton "k" []

/-- A sequence-form config with two values under a key other than `trusted-hosts`. -/
def configTwoScopes : GoMap (List String) := AList.singleton "scope" ["a", "b"]

/-- A sequence-form config whose `trusted-hosts` values carry white space. -/
def configSpacedHosts : GoMap (List String) := AList.singleton "trusted-hosts" ["a.com", " b.com"]

/-- The sequence form of the second step of the trusted-hosts acceptance test. -/
def testConfigSeq : GoMap (List String) :=
  (AList.singleton "trusted-hosts" ["claude.ai", "opencode.ai"]).insert
    "client-uris-must-match" ["true"]

/-- A component that is not a client registration policy. -/
def otherComponent : component :=
  ⟨"c1", "ldap", "realmA", "ldap", "org.keycloak.storage.UserStorageProvider", "", ∅⟩

/-- A component that is a client registration policy. -/
def policyComponent : component :=
  ⟨"c2", "hosts", "realmA", "trusted-hosts",
    "org.keycloak.services.clientregistration.policy.ClientRegistrationPolicy", "anonymous",
    AList.singleton "trusted-hosts" ["a.com", "b.com"]⟩

/-- Components of three stored policies named `p1`, `p1` and `p2`. -/
def threeComponents : List component :=
  [⟨"id1", "p1", "realmA", "trusted-hosts",
      "org.keycloak.services.clientregistration.policy.ClientRegistrationPolicy", "anonymous", ∅⟩,
   ⟨"id2", "p1", "realmA", "max-clients",
      "org.keycloak.services.clientregistration.policy.ClientRegistrationPolicy", "anonymous", ∅⟩,
   ⟨"id3", "p2", "realmA", "scope",
      "org.keycloak.services.clientregistration.policy.ClientRegistrationPolicy",
      "authenticated", ∅⟩]

/-- The three stored policies as `GetRealmClientRegistrationPolicies` returns them. -/
def threePolicies : List RealmClientRegistrationPolicy :=
  [⟨"id1", "p1", "realmA", "trusted-hosts", "anonymous", ∅⟩,
   ⟨"id2", "p1", "realmA", "max-clients", "anonymous", ∅⟩,
   ⟨"id3", "p2", "realmA", "scope", "authenticated", ∅⟩]

/-- A transport that lists the three stored policies. -/
def threeTransport : String → GoMap String → Except String (List component) :=
  fun _ _ => .ok threeComponents

/-- The resource layer's config normalisation: the resource data after
`getRealmClientRegistrationPolicyFromData` followed by
`setRealmClientRegistrationPolicyData`, as the update of the resource performs them. -/
def normaliseData (data : ResourceData) : ResourceData :=
  setRealmClientRegistrationPolicyData data (getRealmClientRegistrationPolicyFromData data)

/-- A policy as the resource layer hands it to the create call. -/
def newPolicy : RealmClientRegistrationPolicy :=
  ⟨"", "hosts", "realmA", "trusted-hosts", "anonymous",
    AList.singleton "trusted-hosts" ["a.com", "b.com"]⟩

/-- A config whose `trusted-hosts` value has commas and white space. -/
def configSpacedValue : GoMap String :=
  (AList.singleton "trusted-hosts" " a.com , b.com,").insert "scope" "a, b"

/-- A transport whose post fails. -/
def failingPost : String → component → Except String String :=
  fun _ _ => .error "409 Conflict"

/-- A transport whose post succeeds with the location of the new component. -/
def locatingPost : String → component → Except String String :=
  fun path _ => .ok ("http://localhost:8080/admin" ++ path ++ "/abc-123")

/-! ## Facts about the string functions -/


theorem isPrefixOf_single (c x : Char) (xs : List Char) :
    List.isPrefixOf [c] (x :: xs) = (c == x) := by
  simp [List.isPrefixOf]

theorem containsChars_single (c : Char) (l : List Char) :
    containsChars [c] l = true ↔ c ∈ l := by
  induction l with
  | nil => simp [containsChars, List.isPrefixOf]
  | cons x xs ih =>
    simp only [containsChars, isPrefixOf_single, Bool.or_eq_true, ih, List.mem_cons, beq_iff_eq]

theorem Contains_single (s : String) (c : Char) :
    Contains s (String.mk [c]) = true ↔ c ∈ s.data := by
  simp only [Contains, containsChars_single]

theorem Contains_comma (s : String) : Contains s "," = true ↔ ',' ∈ s.data :=
  Contains_single s ','

theorem splitChars_single_cons (c x : Char) (xs : List Char) :
    splitChars [c] 0 (x :: xs) =
      if c = x then [] :: splitChars [c] 0 xs else consHead x (splitChars [c] 0 xs) := by
  simp [splitChars, isPrefixOf_single]

theorem splitChars_single_not_mem (c : Char) (l : List Char) (h : c ∉ l) :
    splitChars [c] 0 l = [l] := by
  induction l with
  | nil => simp [splitChars]
  | cons x xs ih =>
    simp only [List.mem_cons, not_or] at h
    rw [splitChars_single_cons, if_neg h.1, ih h.2]
    rfl

theorem splitChars_single_append (c : Char) (a b : List Char) (h : c ∉ a) :
    splitChars [c] 0 (a ++ c :: b) = a :: splitChars [c] 0 b := by
  induction a with
  | nil => simp [splitChars_single_cons]
  | cons x xs ih =>
    simp only [List.mem_cons, not_or] at h
    rw [List.cons_append, splitChars_single_cons, if_neg h.1, ih h.2]
    rfl

theorem splitChars_single_length (c : Char) (l : List Char) :
    (splitChars [c] 0 l).length = l.count c + 1 := by
  induction l with
  | nil => simp [splitChars]
  | cons x xs ih =>
    rw [splitChars_single_cons]
    by_cases hx : c = x
    · subst hx
      simp [ih]
    · rw [if_neg hx]
      have hne : splitChars [c] 0 xs ≠ [] := by
        intro h0
        rw [h0] at ih
        simp at ih
      cases hs : splitChars [c] 0 xs with
      | nil => exact absurd hs hne
      | cons p ps =>
        rw [hs] at ih
        have hx' : ¬ (x = c) := fun h => hx h.symm
        simp [consHead, List.count_cons, hx', ← ih]

theorem splitChars_single_eq_one (c : Char) (l b : List Char)
    (h : splitChars [c] 0 l = [b]) : l = b ∧ c ∉ l := by
  have hl := splitChars_single_length c l
  rw [h] at hl
  have hc : c ∉ l := by
    apply List.count_eq_zero.mp
    simp at hl
    omega
  rw [splitChars_single_not_mem c l hc] at h
  exact ⟨by simpa using h, hc⟩

theorem splitChars_single_eq_two (c : Char) (l a b : List Char)
    (h : splitChars [c] 0 l = [a, b]) : l = a ++ c :: b ∧ c ∉ a ∧ c ∉ b := by
  induction l generalizing a with
  | nil => simp [splitChars] at h
  | cons x xs ih =>
    rw [splitChars_single_cons] at h
    by_cases hx : c = x
    · subst hx
      rw [if_pos rfl] at h
      simp only [List.cons.injEq] at h
      obtain ⟨ha, hb⟩ := h
      obtain ⟨h1, h2⟩ := splitChars_single_eq_one c xs b (by rw [hb])
      subst ha
      subst h1
      simp [h2]
    · rw [if_neg hx] at h
      cases hs : splitChars [c] 0 xs with
      | nil =>
        rw [hs] at h
        simp [consHead] at h
      | cons p ps =>
        rw [hs] at h
        simp only [consHead, List.cons.injEq] at h
        obtain ⟨ha, hb⟩ := h
        subst ha
        subst hb
        obtain ⟨h1, h2, h3⟩ := ih p hs
        refine ⟨by rw [h1]; rfl, ?_, h3⟩
        simp only [List.mem_cons, not_or]
        exact ⟨hx, h2⟩

theorem Join_cons_cons_data (a b : String) (rest : List String) (c : Char) :
    (Join (a :: b :: rest) (String.mk [c])).data = a.data ++ c :: (Join (b :: rest) (String.mk [c])).data := by
  simp [Join, String.data_append]

theorem splitChars_Join (c : Char) (hs : List String) (hne : hs ≠ [])
    (h : ∀ x ∈ hs, c ∉ x.data) :
    splitChars [c] 0 (Join hs (String.mk [c])).data = hs.map String.data := by
  induction hs with
  | nil => exact absurd rfl hne
  | cons a rest ih =>
    cases rest with
    | nil =>
      simp only [Join, List.map_cons, List.map_nil]
      exact splitChars_single_not_mem c a.data (h a (List.mem_cons_self _ _))
    | cons b rest =>
      rw [Join_cons_cons_data, splitChars_single_append c _ _ (h a (List.mem_cons_self _ _)),
        ih (by simp) (fun x hx => h x (List.mem_cons_of_mem _ hx))]
      rfl

theorem Split_Join (c : Char) (hs : List String) (hne : hs ≠ [])
    (h : ∀ x ∈ hs, c ∉ x.data) :
    Split (Join hs (String.mk [c])) (String.mk [c]) = hs := by
  unfold Split
  rw [if_neg (by simp), splitChars_Join c hs hne h, List.map_map]
  have : (String.mk ∘ String.data) = id := by
    funext s
    rfl
  rw [this, List.map_id]

theorem mem_Join_of_two (c : Char) (a b : String) (rest : List String) :
    c ∈ (Join (a :: b :: rest) (String.mk [c])).data := by
  rw [Join_cons_cons_data]
  simp

theorem head?_dropWhile_isSpace (l : List Char) :
    ∀ c, (l.dropWhile isSpace).head? = some c → isSpace c = false := by
  intro c hc
  have := List.head?_dropWhile_not isSpace l
  rw [hc] at this
  simpa using this

theorem TrimSpace_hasTrailingSpace (s : String) : hasTrailingSpace (TrimSpace s) = false := by
  unfold hasTrailingSpace TrimSpace
  simp only [List.getLast?_reverse]
  split
  · next c hc => exact head?_dropWhile_isSpace _ c hc
  · rfl

theorem head_eq_of_isPrefix {l₁ l₂ : List Char} (h : l₁ <+: l₂) (c : Char)
    (hc : l₁.head? = some c) : l₂.head? = some c := by
  obtain ⟨t, rfl⟩ := h
  cases l₁ with
  | nil => simp at hc
  | cons x xs => simpa using hc

theorem TrimSpace_hasLeadingSpace (s : String) : hasLeadingSpace (TrimSpace s) = false := by
  unfold hasLeadingSpace TrimSpace
  split
  · next c hc =>
    simp only at hc
    have hp : ((s.data.dropWhile isSpace).reverse.dropWhile isSpace).reverse <+:
        s.data.dropWhile isSpace := by
      have := List.dropWhile_suffix isSpace (l := (s.data.dropWhile isSpace).reverse)
      simpa using List.reverse_prefix.mpr this
    exact head?_dropWhile_isSpace _ c (head_eq_of_isPrefix hp c hc)
  · rfl

theorem dropWhile_eq_self_of_head (l : List Char)
    (h : ∀ c, l.head? = some c → isSpace c = false) : l.dropWhile isSpace = l := by
  cases l with
  | nil => rfl
  | cons x xs =>
    have := h x rfl
    simp [List.dropWhile, this]

theorem TrimSpace_eq_self (s : String) (hl : hasLeadingSpace s = false)
    (ht : hasTrailingSpace s = false) : TrimSpace s = s := by
  unfold TrimSpace
  have h1 : s.data.dropWhile isSpace = s.data := by
    apply dropWhile_eq_self_of_head
    intro c hc
    unfold hasLeadingSpace at hl
    rw [hc] at hl
    exact hl
  have h2 : s.data.reverse.dropWhile isSpace = s.data.reverse := by
    apply dropWhile_eq_self_of_head
    intro c hc
    unfold hasTrailingSpace at ht
    rw [List.head?_reverse] at hc
    rw [hc] at ht
    exact ht
  rw [h1, h2, List.reverse_reverse]

/-! ## Facts about the map loops -/

theorem lookup_foldl_step {A B : Type} (g : String → A → Option B)
    (step : GoMap B → Sigma (fun _ : String => A) → GoMap B)
    (hstep : ∀ acc e, step acc e = putOpt acc e.1 (g e.1 e.2))
    (es : List (Sigma (fun _ : String => A))) (hnd : es.NodupKeys) (acc : GoMap B)
    (k : String) :
    (es.foldl step acc).lookup k = ((es.dlookup k).bind (g k)).or (acc.lookup k) := by
  induction es generalizing acc with
  | nil => simp
  | cons e rest ih =>
    obtain ⟨hk, hrest⟩ := List.nodupKeys_cons.mp hnd
    rw [List.foldl_cons, ih hrest]
    by_cases hek : k = e.1
    · subst hek
      have hnone : rest.dlookup e.1 = none := List.dlookup_eq_none.mpr hk
      rw [hnone, hstep]
      obtain ⟨ek, ev⟩ := e
      simp only [Option.none_bind, List.dlookup_cons_eq, Option.some_bind, Option.none_or]
      cases g ek ev with
      | none => rfl
      | some w => simp [putOpt, AList.lookup_insert]
    · have hne : k ≠ e.1 := hek
      obtain ⟨ek, ev⟩ := e
      rw [List.dlookup_cons_ne _ _ hne]
      have hacc : (step acc ⟨ek, ev⟩).lookup k = acc.lookup k := by
        rw [hstep]
        cases g ek ev with
        | none => rfl
        | some w => exact AList.lookup_insert_ne hne
      rw [hacc]

theorem lookup_foldl_empty {A B : Type} (g : String → A → Option B)
    (step : GoMap B → Sigma (fun _ : String => A) → GoMap B)
    (hstep : ∀ acc e, step acc e = putOpt acc e.1 (g e.1 e.2))
    (m : GoMap A) (k : String) :
    (m.entries.foldl step ∅).lookup k = (m.lookup k).bind (g k) := by
  rw [lookup_foldl_step g step hstep m.entries m.nodupKeys ∅ k, AList.lookup_empty,
    Option.or_none]
  rfl

theorem getStep_eq (acc : GoMap (List String)) (e : Sigma (fun _ : String => String)) :
    getRealmClientRegistrationPolicyFromDataStep acc e =
      putOpt acc e.1 (some (expandValue e.1 e.2)) := by
  simp only [getRealmClientRegistrationPolicyFromDataStep, expandValue, putOpt]
  split <;> rfl

theorem setStep_eq (acc : GoMap String) (e : Sigma (fun _ : String => List String)) :
    setRealmClientRegistrationPolicyDataStep acc e = putOpt acc e.1 (collapseValue e.1 e.2) := by
  obtain ⟨k, vs⟩ := e
  cases vs with
  | nil => rfl
  | cons v0 rest =>
    have hpos : (v0 :: rest).length > 0 := by simp
    simp only [setRealmClientRegistrationPolicyDataStep, collapseValue, dif_pos hpos]
    by_cases h : k = "trusted-hosts" ∧ (v0 :: rest).length > 1
    · rw [if_pos h, if_pos h]
      rfl
    · rw [if_neg h, if_neg h]
      rfl

theorem lookup_getConfig (m : GoMap String) (k : String) :
    (getRealmClientRegistrationPolicyFromDataConfig m).lookup k =
      (m.lookup k).map (expandValue k) := by
  unfold getRealmClientRegistrationPolicyFromDataConfig
  by_cases h : m.entries = []
  · simp only [h, ne_eq, not_true_eq_false, if_false]
    simp [AList.lookup, h]
  · rw [if_pos h, lookup_foldl_empty (fun k v => some (expandValue k v)) _ getStep_eq]
    cases m.lookup k <;> rfl

theorem lookup_setConfig (c : GoMap (List String)) (k : String) :
    (setRealmClientRegistrationPolicyDataConfig c).lookup k =
      (c.lookup k).bind (collapseValue k) :=
  lookup_foldl_empty _ _ setStep_eq c k

theorem helperStep_eq (acc : GoMap (List String)) (e : Sigma (fun _ : String => String)) :
    convertConfigMapToArrayFormatStep acc e =
      putOpt acc e.1 (some (helperExpandValue e.1 e.2)) := by
  simp only [convertConfigMapToArrayFormatStep, helperExpandValue, putOpt]
  split <;> rfl

theorem arrayToMapStep_eq (acc : GoMap String) (e : Sigma (fun _ : String => List String)) :
    convertConfigArrayToMapFormatStep acc e = putOpt acc e.1 (collapseValue e.1 e.2) :=
  setStep_eq acc e

theorem dataSourceStep_eq (acc : GoMap String) (e : Sigma (fun _ : String => List String)) :
    dataSourceConfigStep acc e = putOpt acc e.1 (collapseValue e.1 e.2) :=
  setStep_eq acc e

theorem lookup_helperConfig (m : GoMap String) (k : String) :
    (convertConfigMapToArrayFormat m).lookup k = (m.lookup k).map (helperExpandValue k) := by
  unfold convertConfigMapToArrayFormat
  rw [lookup_foldl_empty (fun k v => some (helperExpandValue k v)) _ helperStep_eq]
  cases m.lookup k <;> rfl

theorem lookup_arrayToMap (c : GoMap (List String)) (k : String) :
    (convertConfigArrayToMapFormat c).lookup k = (c.lookup k).bind (collapseValue k) :=
  lookup_foldl_empty _ _ arrayToMapStep_eq c k

theorem lookup_dataSourceConfig (c : GoMap (List String)) (k : String) :
    (dataSourceConfig c).lookup k = (c.lookup k).bind (collapseValue k) :=
  lookup_foldl_empty _ _ dataSourceStep_eq c k

/-! ## Facts used by the claims -/

theorem collapse_expand_noComma (k v : String) (h : Contains v "," = false) :
    collapseValue k (expandValue k v) = some v := by
  simp [expandValue, h, collapseValue]

theorem Contains_comma_false (s : String) : Contains s "," = false ↔ ',' ∉ s.data := by
  rw [← Contains_comma]
  simp

theorem map_TrimSpace_eq_self (hs : List String)
    (h : ∀ x ∈ hs, hasLeadingSpace x = false ∧ hasTrailingSpace x = false) :
    hs.map TrimSpace = hs := by
  induction hs with
  | nil => rfl
  | cons a rest ih =>
    rw [List.map_cons, TrimSpace_eq_self a (h a (List.mem_cons_self _ _)).1
      (h a (List.mem_cons_self _ _)).2, ih (fun x hx => h x (List.mem_cons_of_mem _ hx))]

theorem getConfig_singleton (k v : String) :
    getRealmClientRegistrationPolicyFromDataConfig (AList.singleton k v) =
      AList.singleton k (expandValue k v) := by
  unfold getRealmClientRegistrationPolicyFromDataConfig
  rw [if_pos (by simp [AList.singleton])]
  show getRealmClientRegistrationPolicyFromDataStep ∅ ⟨k, v⟩ = _
  rw [getStep_eq]
  exact AList.insert_empty _ _

theorem setConfig_singleton (k w : String) (vs : List String)
    (h : collapseValue k vs = some w) :
    setRealmClientRegistrationPolicyDataConfig (AList.singleton k vs) = AList.singleton k w := by
  show setRealmClientRegistrationPolicyDataStep ∅ ⟨k, vs⟩ = _
  rw [setStep_eq]
  show putOpt ∅ k (collapseValue k vs) = _
  rw [h]
  exact AList.insert_empty _ _

theorem collapseValue_isSome (k : String) (vs : List String) :
    (collapseValue k vs).isSome = true ↔ vs ≠ [] := by
  cases vs with
  | nil => simp [collapseValue]
  | cons v0 rest =>
    simp only [collapseValue]
    split <;> simp

theorem mem_of_lookup_bind (c : GoMap (List String)) (out : GoMap String) (k : String)
    (h : out.lookup k = (c.lookup k).bind (collapseValue k)) :
    k ∈ out ↔ ∃ vs, c.lookup k = some vs ∧ vs ≠ [] := by
  rw [← AList.lookup_isSome, h]
  cases c.lookup k with
  | none => simp
  | some vs => simp [collapseValue_isSome]

theorem expandValue_Join (hs : List String) (hlen : 2 ≤ hs.length)
    (hnc : ∀ x ∈ hs, Contains x "," = false)
    (hsp : ∀ x ∈ hs, hasLeadingSpace x = false ∧ hasTrailingSpace x = false) :
    expandValue "trusted-hosts" (Join hs ",") = hs := by
  have hne : hs ≠ [] := by
    intro h0
    rw [h0] at hlen
    simp at hlen
  have hcontains : Contains (Join hs ",") "," = true := by
    rw [Contains_comma]
    match hs, hlen with
    | a :: b :: rest, _ => exact mem_Join_of_two ',' a b rest
  unfold expandValue
  rw [if_pos ⟨rfl, hcontains⟩,
    Split_Join ',' hs hne (fun x hx => (Contains_comma_false x).mp (hnc x hx))]
  exact map_TrimSpace_eq_self hs hsp

theorem matchingPoliciesStep_eq (name providerId subType : String)
    (acc : List RealmClientRegistrationPolicy) (p : RealmClientRegistrationPolicy) :
    matchingPoliciesStep name providerId subType acc p =
      if matchesFilters name providerId subType p = true then acc ++ [p] else acc := by
  unfold matchingPoliciesStep matchesFilters
  by_cases h1 : p.Name = name <;> by_cases h2 : providerId = "" <;>
    by_cases h3 : p.ProviderId = providerId <;> by_cases h4 : subType = "" <;>
    by_cases h5 : p.SubType = subType <;> simp [h1, h2, h3, h4, h5]

theorem foldl_matchingPoliciesStep (name providerId subType : String)
    (policies acc : List RealmClientRegistrationPolicy) :
    policies.foldl (matchingPoliciesStep name providerId subType) acc =
      acc ++ policies.filter (matchesFilters name providerId subType) := by
  induction policies generalizing acc with
  | nil => simp
  | cons p rest ih =>
    rw [List.foldl_cons, ih, matchingPoliciesStep_eq]
    by_cases hp : matchesFilters name providerId subType p = true
    · simp [hp]
    · simp [hp]

theorem matchingPolicies_eq_filter (policies : List RealmClientRegistrationPolicy)
    (name providerId subType : String) :
    matchingPolicies policies name providerId subType =
      policies.filter (matchesFilters name providerId subType) := by
  unfold matchingPolicies
  rw [foldl_matchingPoliciesStep]
  rfl

theorem foldl_matchIds (l : List RealmClientRegistrationPolicy) (acc : List String) :
    l.foldl (fun ids p =>
      ids ++ [p.Id ++ " (providerId=" ++ p.ProviderId ++ ", subType=" ++ p.SubType ++ ")"]) acc =
      acc ++ l.map matchEntry := by
  induction l generalizing acc with
  | nil => simp
  | cons p rest ih =>
    rw [List.foldl_cons, ih]
    simp [matchEntry]

theorem matchIds_eq_map (l : List RealmClientRegistrationPolicy) :
    matchIds l = l.map matchEntry := by
  unfold matchIds
  rw [foldl_matchIds]
  rfl

theorem read_of_no_match (get : String → GoMap String → Except String (List component))
    (data : ResourceData) (policies : List RealmClientRegistrationPolicy)
    (h : GetRealmClientRegistrationPolicies get data.realm_id = .ok policies)
    (hf : policies.filter (matchesFilters data.name data.provider_id data.sub_type) = []) :
    dataSourceKeycloakRealmClientRegistrationPolicyRead get data =
      .error ("no client registration policy found with name \x27" ++ data.name ++
        "\x27 in realm \x27" ++ data.realm_id ++ "\x27") := by
  unfold dataSourceKeycloakRealmClientRegistrationPolicyRead
  simp only [h, matchingPolicies_eq_filter, hf]
  simp

theorem read_of_one_match (get : String → GoMap String → Except String (List component))
    (data : ResourceData) (policies : List RealmClientRegistrationPolicy)
    (p : RealmClientRegistrationPolicy)
    (h : GetRealmClientRegistrationPolicies get data.realm_id = .ok policies)
    (hf : policies.filter (matchesFilters data.name data.provider_id data.sub_type) = [p]) :
    dataSourceKeycloakRealmClientRegistrationPolicyRead get data =
      .ok { data with
        id := p.Id
        provider_id := p.ProviderId
        sub_type := p.SubType
        config := dataSourceConfig p.Config } := by
  have hm : matchingPolicies policies data.name data.provider_id data.sub_type = [p] := by
    rw [matchingPolicies_eq_filter, hf]
  have key : ∀ (l : List RealmClientRegistrationPolicy) (h0 : 0 < l.length),
      l = [p] → l.get ⟨0, h0⟩ = p := by
    intro l h0 hl
    subst hl
    rfl
  unfold dataSourceKeycloakRealmClientRegistrationPolicyRead
  simp only [h]
  rw [dif_neg (by rw [hm]; simp), if_neg (by rw [hm]; simp)]
  simp only [key _ _ hm]

theorem read_of_many_matches (get : String → GoMap String → Except String (List component))
    (data : ResourceData) (policies : List RealmClientRegistrationPolicy)
    (p q : RealmClientRegistrationPolicy) (rest : List RealmClientRegistrationPolicy)
    (h : GetRealmClientRegistrationPolicies get data.realm_id = .ok policies)
    (hf : policies.filter (matchesFilters data.name data.provider_id data.sub_type) =
      p :: q :: rest) :
    dataSourceKeycloakRealmClientRegistrationPolicyRead get data =
      .error ("multiple client registration policies found with name \x27" ++ data.name ++
        "\x27: " ++ Join ((p :: q :: rest).map matchEntry) ", " ++
        ". Use provider_id and/or sub_type to filter.") := by
  unfold dataSourceKeycloakRealmClientRegistrationPolicyRead
  simp only [h, matchingPolicies_eq_filter, hf, matchIds_eq_map]
  simp

theorem filter_length_cases (l : List RealmClientRegistrationPolicy) :
    l = [] ∨ (∃ p, l = [p]) ∨ ∃ p q rest, l = p :: q :: rest := by
  match l with
  | [] => exact Or.inl rfl
  | [p] => exact Or.inr (Or.inl ⟨p, rfl⟩)
  | p :: q :: rest => exact Or.inr (Or.inr ⟨p, q, rest, rfl⟩)

theorem Split_slash (s : String) :
    Split s "/" = (splitChars ['/'] 0 s.data).map String.mk := by
  unfold Split
  rw [if_neg (by decide)]

theorem Split_slash_length (s : String) : (Split s "/").length = s.data.count '/' + 1 := by
  rw [Split_slash, List.length_map, splitChars_single_length]

theorem import_of_split (d : ResourceData) (a b : String) (h : Split d.id "/" = [a, b]) :
    resourceKeycloakRealmClientRegistrationPolicyImport d =
      .ok [{ d with realm_id := a, id := b }] := by
  have key : ∀ (l : List String) (h0 : 0 < l.length) (h1 : 1 < l.length),
      l = [a, b] → l.get ⟨0, h0⟩ = a ∧ l.get ⟨1, h1⟩ = b := by
    intro l h0 h1 hl
    subst hl
    exact ⟨rfl, rfl⟩
  unfold resourceKeycloakRealmClientRegistrationPolicyImport
  rw [dif_neg (by rw [h]; simp)]
  have k := key (Split d.id "/") (by rw [h]; simp) (by rw [h]; simp) h
  rw [k.1, k.2]

theorem import_of_bad_split (d : ResourceData) (h : (Split d.id "/").length ≠ 2) :
    resourceKeycloakRealmClientRegistrationPolicyImport d =
      .error "Invalid import. Supported import formats: \x7b\x7brealmId\x7d\x7d/\x7b\x7bpolicyId\x7d\x7d" := by
  unfold resourceKeycloakRealmClientRegistrationPolicyImport
  rw [dif_pos h]

theorem Split_importId (realmId policyId : String) (hr : Contains realmId "/" = false)
    (hp : Contains policyId "/" = false) :
    Split (getRealmClientRegistrationPolicyImportId realmId policyId) "/" =
      [realmId, policyId] := by
  have hr1 : '/' ∉ realmId.data := by
    intro hmem
    rw [(Contains_single realmId '/').mpr hmem] at hr
    exact Bool.noConfusion hr
  have hp1 : '/' ∉ policyId.data := by
    intro hmem
    rw [(Contains_single policyId '/').mpr hmem] at hp
    exact Bool.noConfusion hp
  have hdata : (getRealmClientRegistrationPolicyImportId realmId policyId).data =
      realmId.data ++ '/' :: policyId.data := by
    simp [getRealmClientRegistrationPolicyImportId, String.data_append]
  rw [Split_slash, hdata, splitChars_single_append _ _ _ hr1,
    splitChars_single_not_mem _ _ hp1]
  rfl

theorem Split_slash_pair (s a b : String) (h : Split s "/" = [a, b]) :
    s = a ++ "/" ++ b ∧ Contains a "/" = false ∧ Contains b "/" = false := by
  rw [Split_slash] at h
  match hs : splitChars ['/'] 0 s.data, h with
  | [x, y], h =>
    simp only [List.map_cons, List.map_nil, List.cons.injEq, and_true] at h
    obtain ⟨h1, h2, h3⟩ := splitChars_single_eq_two '/' s.data x y hs
    obtain ⟨ha, hb⟩ := h
    subst ha
    subst hb
    refine ⟨?_, ?_, ?_⟩
    · apply String.ext
      simp [String.data_append, h1]
    · cases hc : Contains (String.mk x) "/" with
      | false => rfl
      | true => exact absurd ((Contains_single _ '/').mp hc) h2
    · cases hc : Contains (String.mk y) "/" with
      | false => rfl
      | true => exact absurd ((Contains_single _ '/').mp hc) h3

theorem list_length_two (l : List String) (h : l.length = 2) : ∃ a b, l = [a, b] := by
  match l, h with
  | [a, b], _ => exact ⟨a, b, rfl⟩

theorem splitChars_single_ne_nil (c : Char) (l : List Char) : splitChars [c] 0 l ≠ [] := by
  intro h
  have hl := splitChars_single_length c l
  rw [h] at hl
  simp at hl

theorem consHead_append (x : Char) (l r : List (List Char)) (h : l ≠ []) :
    consHead x (l ++ r) = consHead x l ++ r := by
  cases l with
  | nil => exact absurd rfl h
  | cons p ps => rfl

theorem splitChars_single_append_sep (c : Char) (a b : List Char) :
    splitChars [c] 0 (a ++ c :: b) = splitChars [c] 0 a ++ splitChars [c] 0 b := by
  induction a with
  | nil => simp [splitChars_single_cons, splitChars]
  | cons x xs ih =>
    rw [List.cons_append, splitChars_single_cons, splitChars_single_cons, ih]
    by_cases hx : c = x
    · rw [if_pos hx, if_pos hx]
      rfl
    · rw [if_neg hx, if_neg hx, consHead_append x _ _ (splitChars_single_ne_nil c xs)]

theorem getIdFromLocationHeader_append (pre newid : String)
    (h : Contains newid "/" = false) :
    getIdFromLocationHeader (pre ++ "/components/" ++ newid) = newid := by
  have hn : '/' ∉ newid.data := by
    intro hmem
    rw [(Contains_single newid '/').mpr hmem] at h
    exact Bool.noConfusion h
  have hdata : (pre ++ "/components/" ++ newid).data =
      (pre.data ++ "/components".data) ++ '/' :: newid.data := by
    simp [String.data_append]
  unfold getIdFromLocationHeader
  rw [Split_slash, hdata, splitChars_single_append_sep, splitChars_single_not_mem _ _ hn]
  simp

theorem splitChars_single_pieces (c : Char) (l : List Char) :
    ∀ p ∈ splitChars [c] 0 l, c ∉ p := by
  induction l with
  | nil =>
    intro p hp
    simp [splitChars] at hp
    simp [hp]
  | cons x xs ih =>
    intro p hp
    rw [splitChars_single_cons] at hp
    by_cases hx : c = x
    · rw [if_pos hx] at hp
      rcases List.mem_cons.mp hp with h0 | h1
      · simp [h0]
      · exact ih p h1
    · rw [if_neg hx] at hp
      cases hs : splitChars [c] 0 xs with
      | nil =>
        rw [hs] at hp
        simp only [consHead, List.mem_singleton] at hp
        simp [hp, hx]
      | cons q qs =>
        rw [hs] at hp ih
        simp only [consHead] at hp
        rcases List.mem_cons.mp hp with h0 | h1
        · rw [h0]
          simp only [List.mem_cons, not_or]
          exact ⟨hx, ih q (List.mem_cons_self _ _)⟩
        · exact ih p (List.mem_cons_of_mem _ h1)

theorem TrimSpace_data_subset (s : String) : ∀ c ∈ (TrimSpace s).data, c ∈ s.data := by
  intro c hc
  unfold TrimSpace at hc
  simp only [List.mem_reverse] at hc
  have h1 := (List.dropWhile_suffix isSpace).subset hc
  rw [List.mem_reverse] at h1
  exact (List.dropWhile_suffix isSpace).subset h1

theorem Split_comma_length (s : String) : (Split s ",").length = s.data.count ',' + 1 := by
  unfold Split
  rw [if_neg (by decide), List.length_map, splitChars_single_length]

theorem Split_comma_pieces (s : String) : ∀ x ∈ Split s ",", ',' ∉ x.data := by
  intro x hx
  unfold Split at hx
  rw [if_neg (by decide)] at hx
  obtain ⟨p, hp, rfl⟩ := List.mem_map.mp hx
  exact splitChars_single_pieces ',' s.data p hp

theorem expand_collapse_expand (k v : String) :
    ∃ w, collapseValue k (expandValue k v) = some w ∧ expandValue k w = expandValue k v := by
  by_cases h : k = "trusted-hosts" ∧ Contains v "," = true
  · obtain ⟨hk, hc⟩ := h
    subst hk
    have hexp : expandValue "trusted-hosts" v = (Split v ",").map TrimSpace := by
      simp [expandValue, hc]
    have hlen : 2 ≤ ((Split v ",").map TrimSpace).length := by
      rw [List.length_map, Split_comma_length]
      have := List.count_pos_iff.mpr ((Contains_comma v).mp hc)
      omega
    have hnc : ∀ x ∈ (Split v ",").map TrimSpace, Contains x "," = false := by
      intro x hx
      obtain ⟨y, hy, rfl⟩ := List.mem_map.mp hx
      rw [Contains_comma_false]
      exact fun hmem => Split_comma_pieces v y hy (TrimSpace_data_subset y _ hmem)
    have hsp : ∀ x ∈ (Split v ",").map TrimSpace,
        hasLeadingSpace x = false ∧ hasTrailingSpace x = false := by
      intro x hx
      obtain ⟨y, _, rfl⟩ := List.mem_map.mp hx
      exact ⟨TrimSpace_hasLeadingSpace y, TrimSpace_hasTrailingSpace y⟩
    rw [hexp]
    refine ⟨Join ((Split v ",").map TrimSpace) ",", ?_, expandValue_Join _ hlen hnc hsp⟩
    match hl : (Split v ",").map TrimSpace, hlen with
    | a :: b :: rest, _ => simp [collapseValue]
  · have hexp : expandValue k v = [v] := by
      unfold expandValue
      rw [if_neg h]
    rw [hexp]
    exact ⟨v, by simp [collapseValue], hexp⟩

theorem lookup_normaliseData (d : ResourceData) (k : String) :
    (normaliseData d).config.lookup k =
      (d.config.lookup k).bind (fun v => collapseValue k (expandValue k v)) := by
  show (setRealmClientRegistrationPolicyDataConfig
    (getRealmClientRegistrationPolicyFromDataConfig d.config)).lookup k = _
  rw [lookup_setConfig, lookup_getConfig]
  cases d.config.lookup k <;> rfl

theorem lookup_expand_normaliseData (d : ResourceData) (k : String) :
    (getRealmClientRegistrationPolicyFromData (normaliseData d)).Config.lookup k =
      (getRealmClientRegistrationPolicyFromData d).Config.lookup k := by
  show (getRealmClientRegistrationPolicyFromDataConfig (normaliseData d).config).lookup k =
    (getRealmClientRegistrationPolicyFromDataConfig d.config).lookup k
  rw [lookup_getConfig, lookup_getConfig, lookup_normaliseData]
  cases d.config.lookup k with
  | none => rfl
  | some v =>
    obtain ⟨w, hw, hexp⟩ := expand_collapse_expand k v
    simp [hw, hexp]

/-! ## The claims -/

/-- C1: for every single-value config map in which no value contains a comma,
expanding it with the config loop of `getRealmClientRegistrationPolicyFromData` and
collapsing the result with the config loop of `setRealmClientRegistrationPolicyData`
gives back a map with the same key set and the same value under every key. -/
theorem C1_collapse_expand_roundtrip (d d0 : ResourceData)
    (h : ∀ e ∈ d.config.entries, Contains e.2 "," = false) :
    (∀ k, k ∈ (setRealmClientRegistrationPolicyData d0
        (getRealmClientRegistrationPolicyFromData d)).config ↔ k ∈ d.config) ∧
    ∀ k, (setRealmClientRegistrationPolicyData d0
        (getRealmClientRegistrationPolicyFromData d)).config.lookup k = d.config.lookup k := by
  have hl : ∀ k, (setRealmClientRegistrationPolicyData d0
        (getRealmClientRegistrationPolicyFromData d)).config.lookup k = d.config.lookup k := by
    intro k
    show (setRealmClientRegistrationPolicyDataConfig
      (getRealmClientRegistrationPolicyFromDataConfig d.config)).lookup k = _
    rw [lookup_setConfig, lookup_getConfig]
    cases hv : d.config.lookup k with
    | none => rfl
    | some v =>
      have hmem : (⟨k, v⟩ : Sigma (fun _ : String => String)) ∈ d.config.entries :=
        AList.mem_lookup_iff.mp hv
      exact collapse_expand_noComma k v (h _ hmem)
  refine ⟨fun k => ?_, hl⟩
  rw [← AList.lookup_isSome, ← AList.lookup_isSome, hl k]

theorem C1_collapse_expand_roundtrip_witness :
    (setRealmClientRegistrationPolicyData emptyData
      (getRealmClientRegistrationPolicyFromData
        { emptyData with config := testConfigSingle })).config.lookup "trusted-hosts" =
      some "claude.ai" :=
  (C1_collapse_expand_roundtrip { emptyData with config := testConfigSingle } emptyData
    (by decide)).2 "trusted-hosts"

/-- C2: for every list `hs` of at least two strings without commas and without
leading or trailing white space, the expand conversion of
`getRealmClientRegistrationPolicyFromData` turns the config
`trusted-hosts ↦ hs joined with ","` into `trusted-hosts ↦ hs`, and the collapse
conversion of `setRealmClientRegistrationPolicyData` turns that back into
`trusted-hosts ↦ hs joined with ","`. -/
theorem C2_trusted_hosts_split_join (hs : List String) (d d0 : ResourceData)
    (hlen : 2 ≤ hs.length)
    (h : ∀ x ∈ hs, Contains x "," = false ∧ hasLeadingSpace x = false ∧
      hasTrailingSpace x = false) :
    (getRealmClientRegistrationPolicyFromData
        { d with config := AList.singleton "trusted-hosts" (Join hs ",") }).Config =
      AList.singleton "trusted-hosts" hs ∧
    (setRealmClientRegistrationPolicyData d0
        (getRealmClientRegistrationPolicyFromData
          { d with config := AList.singleton "trusted-hosts" (Join hs ",") })).config =
      AList.singleton "trusted-hosts" (Join hs ",") := by
  have hexp : expandValue "trusted-hosts" (Join hs ",") = hs :=
    expandValue_Join hs hlen (fun x hx => (h x hx).1) (fun x hx => (h x hx).2)
  have hcol : collapseValue "trusted-hosts" hs = some (Join hs ",") := by
    match hs, hlen with
    | a :: b :: rest, _ => simp [collapseValue]
  have h1 : (getRealmClientRegistrationPolicyFromData
        { d with config := AList.singleton "trusted-hosts" (Join hs ",") }).Config =
      AList.singleton "trusted-hosts" hs := by
    show getRealmClientRegistrationPolicyFromDataConfig
      (AList.singleton "trusted-hosts" (Join hs ",")) = AList.singleton "trusted-hosts" hs
    rw [getConfig_singleton, hexp]
  refine ⟨h1, ?_⟩
  show setRealmClientRegistrationPolicyDataConfig (getRealmClientRegistrationPolicyFromData
        { d with config := AList.singleton "trusted-hosts" (Join hs ",") }).Config = _
  rw [h1]
  exact setConfig_singleton _ _ _ hcol

theorem C2_trusted_hosts_split_join_witness :
    (getRealmClientRegistrationPolicyFromData
        { emptyData with config := AList.singleton "trusted-hosts" "claude.ai,opencode.ai" }).Config =
      AList.singleton "trusted-hosts" ["claude.ai", "opencode.ai"] ∧
    (setRealmClientRegistrationPolicyData emptyData
        (getRealmClientRegistrationPolicyFromData
          { emptyData with
            config := AList.singleton "trusted-hosts" "claude.ai,opencode.ai" })).config =
      AList.singleton "trusted-hosts" "claude.ai,opencode.ai" :=
  C2_trusted_hosts_split_join ["claude.ai", "opencode.ai"] emptyData emptyData (by decide)
    (by decide)

/-- C3: when the `trusted-hosts` value `s` of a config contains a comma, the expand
conversion of `getRealmClientRegistrationPolicyFromData` maps `trusted-hosts` to the
pieces of `s` between the commas, each with surrounding white space trimmed, and
no element of that list has leading or trailing white space. -/
theorem C3_trusted_hosts_trimmed (d : ResourceData) (s : String)
    (hs : d.config.lookup "trusted-hosts" = some s) (hc : Contains s "," = true) :
    (getRealmClientRegistrationPolicyFromData d).Config.lookup "trusted-hosts" =
      some ((Split s ",").map TrimSpace) ∧
    ∀ x ∈ (Split s ",").map TrimSpace, hasLeadingSpace x = false ∧ hasTrailingSpace x = false := by
  constructor
  · show (getRealmClientRegistrationPolicyFromDataConfig d.config).lookup _ = _
    rw [lookup_getConfig, hs]
    simp [expandValue, hc]
  · intro x hx
    obtain ⟨y, _, rfl⟩ := List.mem_map.mp hx
    exact ⟨TrimSpace_hasLeadingSpace y, TrimSpace_hasTrailingSpace y⟩

theorem C3_trusted_hosts_trimmed_witness :
    (getRealmClientRegistrationPolicyFromData
      { emptyData with config := AList.singleton "trusted-hosts" "a.com, b.com" }).Config.lookup
        "trusted-hosts" = some ["a.com", "b.com"] :=
  (C3_trusted_hosts_trimmed
    { emptyData with config := AList.singleton "trusted-hosts" "a.com, b.com" } "a.com, b.com"
    (by decide) (by decide)).1

/-- C4: for every key other than `trusted-hosts`, the expand conversion of
`getRealmClientRegistrationPolicyFromData` (and the helper
`convertConfigMapToArrayFormat`) maps the key to the one-element sequence holding
its value unchanged, commas included. -/
theorem C4_other_keys_not_split (d : ResourceData) (k v : String) (hk : k ≠ "trusted-hosts")
    (hv : d.config.lookup k = some v) :
    (getRealmClientRegistrationPolicyFromData d).Config.lookup k = some [v] ∧
    (convertConfigMapToArrayFormat d.config).lookup k = some [v] := by
  constructor
  · show (getRealmClientRegistrationPolicyFromDataConfig d.config).lookup _ = _
    rw [lookup_getConfig, hv]
    simp [expandValue, hk]
  · rw [lookup_helperConfig, hv]
    simp [helperExpandValue, hk]

theorem C4_other_keys_not_split_witness :
    (getRealmClientRegistrationPolicyFromData
      { emptyData with config := AList.singleton "scope" "a,b" }).Config.lookup "scope" =
      some ["a,b"] ∧
    (convertConfigMapToArrayFormat (AList.singleton "scope" "a,b")).lookup "scope" =
      some ["a,b"] :=
  C4_other_keys_not_split { emptyData with config := AList.singleton "scope" "a,b" } "scope" "a,b"
    (by decide) (by decide)

/-- C5: the result of `convertConfigArrayToMapFormat`, and of the collapse loops of
`setRealmClientRegistrationPolicyData` and of the data source read, contains a key
exactly when the sequence-form config holds a non-empty sequence under that key; a
key with an empty sequence is dropped. -/
theorem C5_collapse_key_set (c : GoMap (List String)) (k : String) :
    (k ∈ convertConfigArrayToMapFormat c ↔ ∃ vs, c.lookup k = some vs ∧ vs ≠ []) ∧
    (∀ (d0 : ResourceData) (p : RealmClientRegistrationPolicy),
      k ∈ (setRealmClientRegistrationPolicyData d0 { p with Config := c }).config ↔
        ∃ vs, c.lookup k = some vs ∧ vs ≠ []) ∧
    (k ∈ dataSourceConfig c ↔ ∃ vs, c.lookup k = some vs ∧ vs ≠ []) ∧
    (c.lookup k = some [] →
      (convertConfigArrayToMapFormat c).lookup k = none ∧
      (setRealmClientRegistrationPolicyDataConfig c).lookup k = none ∧
      (dataSourceConfig c).lookup k = none) := by
  refine ⟨mem_of_lookup_bind c _ k (lookup_arrayToMap c k),
    fun d0 p => mem_of_lookup_bind c _ k (lookup_setConfig c k),
    mem_of_lookup_bind c _ k (lookup_dataSourceConfig c k), fun h => ?_⟩
  rw [lookup_arrayToMap, lookup_setConfig, lookup_dataSourceConfig, h]
  exact ⟨rfl, rfl, rfl⟩

theorem C5_collapse_key_set_witness :
    (convertConfigArrayToMapFormat configEmptySeq).lookup "k" = none ∧
    (setRealmClientRegistrationPolicyDataConfig configEmptySeq).lookup "k" = none ∧
    (dataSourceConfig configEmptySeq).lookup "k" = none :=
  (C5_collapse_key_set configEmptySeq "k").2.2.2 (by decide)

/-- C6, refuted as stated: three sequence-form configs in which no `trusted-hosts`
value contains a comma and which collapsing and re-expanding does not give back:
an empty sequence is dropped, a second value under a key other than
`trusted-hosts` is lost, and white space around a `trusted-hosts` value is
trimmed. -/
theorem C6_expand_collapse_counterexample :
    ((∀ e ∈ configEmptySeq.entries, e.1 = "trusted-hosts" → ∀ v ∈ e.2, Contains v "," = false) ∧
      (getRealmClientRegistrationPolicyFromData (setRealmClientRegistrationPolicyData emptyData
        { emptyPolicy with Config := configEmptySeq })).Config.lookup "k" ≠
        configEmptySeq.lookup "k") ∧
    ((∀ e ∈ configTwoScopes.entries, e.1 = "trusted-hosts" → ∀ v ∈ e.2, Contains v "," = false) ∧
      (getRealmClientRegistrationPolicyFromData (setRealmClientRegistrationPolicyData emptyData
        { emptyPolicy with Config := configTwoScopes })).Config.lookup "scope" ≠
        configTwoScopes.lookup "scope") ∧
    ((∀ e ∈ configSpacedHosts.entries, e.1 = "trusted-hosts" → ∀ v ∈ e.2, Contains v "," = false) ∧
      (getRealmClientRegistrationPolicyFromData (setRealmClientRegistrationPolicyData emptyData
        { emptyPolicy with Config := configSpacedHosts })).Config.lookup "trusted-hosts" ≠
        configSpacedHosts.lookup "trusted-hosts") := by
  decide

/-- C6, amended: for every sequence-form config in which every key other than
`trusted-hosts` holds exactly one value, `trusted-hosts` holds at least one value,
none of them containing a comma, and, when it holds more than one, none of them
with leading or trailing white space, collapsing with the conversion of
`setRealmClientRegistrationPolicyData` and expanding the result with the conversion
of `getRealmClientRegistrationPolicyFromData` gives back a map with the same key set
and the same sequence under every key. -/
theorem C6_expand_collapse_roundtrip (p : RealmClientRegistrationPolicy) (d0 : ResourceData)
    (hone : ∀ e ∈ p.Config.entries, e.1 ≠ "trusted-hosts" → e.2.length = 1)
    (hne : ∀ e ∈ p.Config.entries, e.1 = "trusted-hosts" → e.2 ≠ [])
    (hnc : ∀ e ∈ p.Config.entries, e.1 = "trusted-hosts" → ∀ v ∈ e.2, Contains v "," = false)
    (hsp : ∀ e ∈ p.Config.entries, e.1 = "trusted-hosts" → 1 < e.2.length →
      ∀ v ∈ e.2, hasLeadingSpace v = false ∧ hasTrailingSpace v = false) :
    (∀ k, k ∈ (getRealmClientRegistrationPolicyFromData
        (setRealmClientRegistrationPolicyData d0 p)).Config ↔ k ∈ p.Config) ∧
    ∀ k, (getRealmClientRegistrationPolicyFromData
        (setRealmClientRegistrationPolicyData d0 p)).Config.lookup k = p.Config.lookup k := by
  have hl : ∀ k, (getRealmClientRegistrationPolicyFromData
        (setRealmClientRegistrationPolicyData d0 p)).Config.lookup k = p.Config.lookup k := by
    intro k
    show (getRealmClientRegistrationPolicyFromDataConfig
      (setRealmClientRegistrationPolicyDataConfig p.Config)).lookup k = _
    rw [lookup_getConfig, lookup_setConfig]
    cases hv : p.Config.lookup k with
    | none => rfl
    | some vs =>
      have hmem : (⟨k, vs⟩ : Sigma (fun _ : String => List String)) ∈ p.Config.entries :=
        AList.mem_lookup_iff.mp hv
      by_cases hk : k = "trusted-hosts"
      · subst hk
        match vs, hne _ hmem rfl, hnc _ hmem rfl, hsp _ hmem rfl with
        | [v], _, hc, _ =>
          have hcv : Contains v "," = false := hc v (List.mem_singleton.mpr rfl)
          simp [collapseValue, expandValue, hcv]
        | a :: b :: rest, _, hc, hs =>
          have hlen : 2 ≤ (a :: b :: rest).length := by simp
          have hj := expandValue_Join (a :: b :: rest) hlen hc (hs (by simp))
          simp [collapseValue, hj]
      · match vs, hone _ hmem hk with
        | [v], _ => simp [collapseValue, expandValue, hk]
  refine ⟨fun k => ?_, hl⟩
  rw [← AList.lookup_isSome, ← AList.lookup_isSome, hl k]

theorem C6_expand_collapse_roundtrip_witness :
    (getRealmClientRegistrationPolicyFromData (setRealmClientRegistrationPolicyData emptyData
      { emptyPolicy with Config := testConfigSeq })).Config.lookup "trusted-hosts" =
      some ["claude.ai", "opencode.ai"] :=
  (C6_expand_collapse_roundtrip { emptyPolicy with Config := testConfigSeq } emptyData
    (by decide) (by decide) (by decide) (by decide)).2 "trusted-hosts"

/-- C7: when the transport returns the component `c`, `GetRealmClientRegistrationPolicy`
returns an error exactly when the provider type of `c` is not the client
registration policy tag, and otherwise returns the policy whose `Id`, `Name`,
`ProviderId`, `SubType` and `Config` are those of `c` and whose `RealmId` is the
`realmId` argument. -/
theorem C7_get_type_tag_guard (get : String → Except String component)
    (realmId id : String) (c : component)
    (h : get ("/realms/" ++ realmId ++ "/components/" ++ id) = .ok c) :
    ((∃ err, GetRealmClientRegistrationPolicy get realmId id = .error err) ↔
      c.ProviderType ≠
        "org.keycloak.services.clientregistration.policy.ClientRegistrationPolicy") ∧
    (c.ProviderType ≠
        "org.keycloak.services.clientregistration.policy.ClientRegistrationPolicy" →
      GetRealmClientRegistrationPolicy get realmId id =
        .error ("component with id " ++ id ++ " is not a client registration policy")) ∧
    (c.ProviderType =
        "org.keycloak.services.clientregistration.policy.ClientRegistrationPolicy" →
      GetRealmClientRegistrationPolicy get realmId id =
        .ok { Id := c.Id, Name := c.Name, RealmId := realmId, ProviderId := c.ProviderId,
              SubType := c.SubType, Config := c.Config }) := by
  unfold GetRealmClientRegistrationPolicy
  simp only [h]
  by_cases ht : c.ProviderType =
      "org.keycloak.services.clientregistration.policy.ClientRegistrationPolicy"
  · simp [ht, convertFromComponentToRealmClientRegistrationPolicy]
  · simp [ht]

theorem C7_get_type_tag_guard_witness :
    GetRealmClientRegistrationPolicy (fun _ => .ok otherComponent) "realmA" "c1" =
      .error "component with id c1 is not a client registration policy" ∧
    GetRealmClientRegistrationPolicy (fun _ => .ok policyComponent) "realmA" "c2" =
      .ok { Id := "c2", Name := "hosts", RealmId := "realmA", ProviderId := "trusted-hosts",
            SubType := "anonymous", Config := AList.singleton "trusted-hosts" ["a.com", "b.com"] } :=
  ⟨(C7_get_type_tag_guard (fun _ => .ok otherComponent) "realmA" "c1" otherComponent rfl).2.1
    (by decide),
   (C7_get_type_tag_guard (fun _ => .ok policyComponent) "realmA" "c2" policyComponent rfl).2.2
    rfl⟩

/-- C8: for every list of policies returned for the realm, the lookup of
`dataSourceKeycloakRealmClientRegistrationPolicyRead` succeeds exactly when one
listed policy matches the name and the provided provider-id and sub-type filters;
on success that policy is the selected one and its `Id`, `ProviderId` and `SubType`
are the outputs; no match is an error and more than one match is an error. -/
theorem C8_lookup_unique_match
    (get : String → GoMap String → Except String (List component)) (data : ResourceData)
    (policies : List RealmClientRegistrationPolicy)
    (h : GetRealmClientRegistrationPolicies get data.realm_id = .ok policies) :
    ((∃ r, dataSourceKeycloakRealmClientRegistrationPolicyRead get data = .ok r) ↔
      policies.countP (matchesFilters data.name data.provider_id data.sub_type) = 1) ∧
    (∀ r, dataSourceKeycloakRealmClientRegistrationPolicyRead get data = .ok r →
      ∃ p, policies.filter (matchesFilters data.name data.provider_id data.sub_type) = [p] ∧
        r.id = p.Id ∧ r.provider_id = p.ProviderId ∧ r.sub_type = p.SubType) ∧
    (policies.countP (matchesFilters data.name data.provider_id data.sub_type) = 0 →
      dataSourceKeycloakRealmClientRegistrationPolicyRead get data =
        .error ("no client registration policy found with name \x27" ++ data.name ++
          "\x27 in realm \x27" ++ data.realm_id ++ "\x27")) ∧
    (1 < policies.countP (matchesFilters data.name data.provider_id data.sub_type) →
      ∃ msg, dataSourceKeycloakRealmClientRegistrationPolicyRead get data = .error msg) := by
  rw [List.countP_eq_length_filter]
  rcases filter_length_cases
    (policies.filter (matchesFilters data.name data.provider_id data.sub_type)) with
    hf | ⟨p, hf⟩ | ⟨p, q, rest, hf⟩
  · rw [read_of_no_match get data policies h hf, hf]
    simp
  · rw [read_of_one_match get data policies p h hf, hf]
    simp only [Except.ok.injEq, exists_eq', List.length_singleton, true_iff, List.cons.injEq,
      and_true, exists_eq_left', one_ne_zero, false_implies, lt_self_iff_false, true_and]
    intro r hr
    subst hr
    exact ⟨rfl, rfl, rfl⟩
  · rw [read_of_many_matches get data policies p q rest h hf, hf]
    simp

theorem C8_lookup_unique_match_witness :
    (∃ r, dataSourceKeycloakRealmClientRegistrationPolicyRead threeTransport
        { emptyData with realm_id := "realmA", name := "p1", provider_id := "trusted-hosts" } =
      .ok r) ∧
    (∃ msg, dataSourceKeycloakRealmClientRegistrationPolicyRead threeTransport
        { emptyData with realm_id := "realmA", name := "p1" } = .error msg) ∧
    dataSourceKeycloakRealmClientRegistrationPolicyRead threeTransport
        { emptyData with realm_id := "realmA", name := "p3" } =
      .error "no client registration policy found with name \x27p3\x27 in realm \x27realmA\x27" :=
  ⟨(C8_lookup_unique_match threeTransport
      { emptyData with realm_id := "realmA", name := "p1", provider_id := "trusted-hosts" }
      threePolicies rfl).1.mpr (by decide),
   (C8_lookup_unique_match threeTransport { emptyData with realm_id := "realmA", name := "p1" }
      threePolicies rfl).2.2.2 (by decide),
   (C8_lookup_unique_match threeTransport { emptyData with realm_id := "realmA", name := "p3" }
      threePolicies rfl).2.2.1 (by decide)⟩

/-- C9: whenever more than one listed policy matches, the error of
`dataSourceKeycloakRealmClientRegistrationPolicyRead` carries, joined with `", "`,
one entry `<Id> (providerId=<ProviderId>, subType=<SubType>)` per matching policy
and nothing else, in list order, so there are as many entries as matches. -/
theorem C9_multiple_match_error
    (get : String → GoMap String → Except String (List component)) (data : ResourceData)
    (policies : List RealmClientRegistrationPolicy)
    (h : GetRealmClientRegistrationPolicies get data.realm_id = .ok policies)
    (hm : 1 < policies.countP (matchesFilters data.name data.provider_id data.sub_type)) :
    dataSourceKeycloakRealmClientRegistrationPolicyRead get data =
      .error ("multiple client registration policies found with name \x27" ++ data.name ++
        "\x27: " ++
        Join ((policies.filter (matchesFilters data.name data.provider_id data.sub_type)).map
          matchEntry) ", " ++
        ". Use provider_id and/or sub_type to filter.") ∧
    ((policies.filter (matchesFilters data.name data.provider_id data.sub_type)).map
        matchEntry).length =
      policies.countP (matchesFilters data.name data.provider_id data.sub_type) := by
  rw [List.countP_eq_length_filter] at hm
  refine ⟨?_, by rw [List.length_map, List.countP_eq_length_filter]⟩
  rcases filter_length_cases
    (policies.filter (matchesFilters data.name data.provider_id data.sub_type)) with
    hf | ⟨p, hf⟩ | ⟨p, q, rest, hf⟩
  · rw [hf] at hm
    simp at hm
  · rw [hf] at hm
    simp at hm
  · rw [read_of_many_matches get data policies p q rest h hf, hf]

theorem C9_multiple_match_error_witness :
    dataSourceKeycloakRealmClientRegistrationPolicyRead threeTransport
        { emptyData with realm_id := "realmA", name := "p1" } =
      .error ("multiple client registration policies found with name \x27p1\x27: " ++
        "id1 (providerId=trusted-hosts, subType=anonymous), " ++
        "id2 (providerId=max-clients, subType=anonymous)" ++
        ". Use provider_id and/or sub_type to filter.") ∧
    ((threePolicies.filter (matchesFilters "p1" "" "")).map matchEntry).length = 2 :=
  C9_multiple_match_error threeTransport { emptyData with realm_id := "realmA", name := "p1" }
    threePolicies rfl (by decide)

/-- C10: `resourceKeycloakRealmClientRegistrationPolicyImport` succeeds exactly
when the import identifier contains one `/`; on success `realm_id` is the text
before the separator and the resource id the text after it, so the identifier
`realmId/policyId` built by the acceptance test's import-id function gives back
`realmId` and `policyId` whenever neither contains `/`; every other identifier is
rejected with the format error. -/
theorem C10_import_parsing (d : ResourceData) :
    ((∃ r, resourceKeycloakRealmClientRegistrationPolicyImport d = .ok r) ↔
      d.id.data.count '/' = 1) ∧
    (∀ r, resourceKeycloakRealmClientRegistrationPolicyImport d = .ok r →
      ∃ a b, d.id = a ++ "/" ++ b ∧ Contains a "/" = false ∧ Contains b "/" = false ∧
        r = [{ d with realm_id := a, id := b }]) ∧
    (∀ realmId policyId, Contains realmId "/" = false → Contains policyId "/" = false →
      resourceKeycloakRealmClientRegistrationPolicyImport
          { d with id := getRealmClientRegistrationPolicyImportId realmId policyId } =
        .ok [{ d with realm_id := realmId, id := policyId }]) ∧
    (d.id.data.count '/' ≠ 1 →
      resourceKeycloakRealmClientRegistrationPolicyImport d =
        .error "Invalid import. Supported import formats: \x7b\x7brealmId\x7d\x7d/\x7b\x7bpolicyId\x7d\x7d") := by
  have hlen := Split_slash_length d.id
  have hround : ∀ realmId policyId, Contains realmId "/" = false →
      Contains policyId "/" = false →
      resourceKeycloakRealmClientRegistrationPolicyImport
          { d with id := getRealmClientRegistrationPolicyImportId realmId policyId } =
        .ok [{ d with realm_id := realmId, id := policyId }] := by
    intro realmId policyId hr hp
    exact import_of_split _ realmId policyId (Split_importId realmId policyId hr hp)
  by_cases h2 : (Split d.id "/").length = 2
  · obtain ⟨a, b, hab⟩ := list_length_two _ h2
    have hc : d.id.data.count '/' = 1 := by omega
    have himp := import_of_split d a b hab
    obtain ⟨hs1, hs2, hs3⟩ := Split_slash_pair d.id a b hab
    refine ⟨⟨fun _ => hc, fun _ => ⟨_, himp⟩⟩, ?_, hround, fun hne => absurd hc hne⟩
    intro r hr
    rw [himp] at hr
    exact ⟨a, b, hs1, hs2, hs3, (Except.ok.inj hr).symm⟩
  · have hc : d.id.data.count '/' ≠ 1 := by omega
    have himp := import_of_bad_split d h2
    refine ⟨⟨?_, fun h1 => absurd h1 hc⟩, ?_, hround, fun _ => himp⟩
    · rintro ⟨r, hr⟩
      rw [himp] at hr
      exact Except.noConfusion hr
    · intro r hr
      rw [himp] at hr
      exact Except.noConfusion hr

theorem C10_import_parsing_witness :
    resourceKeycloakRealmClientRegistrationPolicyImport
        { emptyData with id := getRealmClientRegistrationPolicyImportId "realmA" "policyB" } =
      .ok [{ emptyData with realm_id := "realmA", id := "policyB" }] ∧
    resourceKeycloakRealmClientRegistrationPolicyImport { emptyData with id := "realmA" } =
      .error "Invalid import. Supported import formats: \x7b\x7brealmId\x7d\x7d/\x7b\x7bpolicyId\x7d\x7d" ∧
    resourceKeycloakRealmClientRegistrationPolicyImport
        { emptyData with id := "realmA/policyB/extra" } =
      .error "Invalid import. Supported import formats: \x7b\x7brealmId\x7d\x7d/\x7b\x7bpolicyId\x7d\x7d" :=
  ⟨(C10_import_parsing emptyData).2.2.1 "realmA" "policyB" (by decide) (by decide),
   (C10_import_parsing { emptyData with id := "realmA" }).2.2.2 (by decide),
   (C10_import_parsing { emptyData with id := "realmA/policyB/extra" }).2.2.2 (by decide)⟩

/-- C11: when the transport's post fails, `NewRealmClientRegistrationPolicy` returns
that error and leaves every field of the policy, `Id` included, as it was; when
the post succeeds with a location ending in `/components/<newid>`, it returns no
error, sets `Id` to `<newid>` and leaves `Name`, `RealmId`, `ProviderId`, `SubType`
and `Config` as they were. -/
theorem C11_create_sets_id (post : String → component → Except String String)
    (p : RealmClientRegistrationPolicy) :
    (∀ err, post ("/realms/" ++ p.RealmId ++ "/components")
        (convertFromRealmClientRegistrationPolicyToComponent p) = .error err →
      NewRealmClientRegistrationPolicy post p = (some err, p)) ∧
    (∀ pre newid, Contains newid "/" = false →
      post ("/realms/" ++ p.RealmId ++ "/components")
        (convertFromRealmClientRegistrationPolicyToComponent p) =
          .ok (pre ++ "/components/" ++ newid) →
      NewRealmClientRegistrationPolicy post p =
        (none, { Id := newid, Name := p.Name, RealmId := p.RealmId,
                 ProviderId := p.ProviderId, SubType := p.SubType, Config := p.Config })) := by
  constructor
  · intro err herr
    unfold NewRealmClientRegistrationPolicy
    rw [herr]
  · intro pre newid hn hok
    unfold NewRealmClientRegistrationPolicy
    rw [hok]
    simp only [getIdFromLocationHeader_append pre newid hn]

theorem C11_create_sets_id_witness :
    NewRealmClientRegistrationPolicy failingPost newPolicy = (some "409 Conflict", newPolicy) ∧
    NewRealmClientRegistrationPolicy locatingPost newPolicy =
      (none, { Id := "abc-123", Name := "hosts", RealmId := "realmA",
               ProviderId := "trusted-hosts", SubType := "anonymous",
               Config := AList.singleton "trusted-hosts" ["a.com", "b.com"] }) :=
  ⟨(C11_create_sets_id failingPost newPolicy).1 "409 Conflict" rfl,
   (C11_create_sets_id locatingPost newPolicy).2 "http://localhost:8080/admin/realms/realmA"
     "abc-123" (by decide) (congrArg Except.ok (by decide))⟩

/-- C12, evaluated at the failing input: for the config
`trusted-hosts ↦ "a.com, b.com"` the helper `convertConfigMapToArrayFormat` keeps the
space in front of the second piece, while the expand loop of
`getRealmClientRegistrationPolicyFromData` trims it. -/
theorem C12_helper_keeps_white_space :
    (convertConfigMapToArrayFormat (AList.singleton "trusted-hosts" "a.com, b.com")).lookup
        "trusted-hosts" = some ["a.com", " b.com"] ∧
    (getRealmClientRegistrationPolicyFromDataConfig
        (AList.singleton "trusted-hosts" "a.com, b.com")).lookup "trusted-hosts" =
      some ["a.com", "b.com"] := by
  decide

/-- C13: the resource layer's config normalisation (the expand of
`getRealmClientRegistrationPolicyFromData` followed by the collapse of
`setRealmClientRegistrationPolicyData`) is idempotent on every single-value
config, whatever commas and white space its values carry: normalising twice gives
the same key set and the same value under every key as normalising once, and the
sequence form computed from the normalised config is the one computed from the
original config. -/
theorem C13_normalisation_idempotent (d : ResourceData) :
    (∀ k, k ∈ (normaliseData (normaliseData d)).config ↔ k ∈ (normaliseData d).config) ∧
    (∀ k, (normaliseData (normaliseData d)).config.lookup k =
      (normaliseData d).config.lookup k) ∧
    (∀ k, (getRealmClientRegistrationPolicyFromData (normaliseData d)).Config.lookup k =
      (getRealmClientRegistrationPolicyFromData d).Config.lookup k) := by
  have hl : ∀ k, (normaliseData (normaliseData d)).config.lookup k =
      (normaliseData d).config.lookup k := by
    intro k
    rw [lookup_normaliseData (normaliseData d), lookup_normaliseData d]
    cases d.config.lookup k with
    | none => rfl
    | some v =>
      obtain ⟨w, hw, hexp⟩ := expand_collapse_expand k v
      simp only [Option.some_bind, hw, hexp]
  refine ⟨fun k => ?_, hl, lookup_expand_normaliseData d⟩
  rw [← AList.lookup_isSome, ← AList.lookup_isSome, hl k]

theorem C13_normalisation_idempotent_witness :
    (normaliseData (normaliseData { emptyData with config := configSpacedValue })).config.lookup
        "trusted-hosts" = some "a.com,b.com," :=
  ((C13_normalisation_idempotent { emptyData with config := configSpacedValue }).2.1
    "trusted-hosts").trans (by decide)

end Keycloak
